import Mathlib

/-!
Verification of the annotation-overlay projection and step-progression engine
of the BetterHackYC tutorial application, together with its annotation CRUD
routes.  All definitions are shallow embeddings of the TypeScript source:

* `updateAnnotationPositions` in `src/components/annotations/AnnotationViewer.tsx`
  (NDC-to-pixel mapping, visibility classification, off-screen indicator);
* the shared-tutorial player page (step progression state machine:
  `sortedAnnotations`, `currentAnnotation`, `nextRequiredStep`,
  `isNearCurrentAnnotation`, `markComplete`, navigation handlers,
  progress rehydration);
* the two annotation API route files (POST / PUT handlers, which coexist in
  the repository with slightly different semantics; they are embedded here as
  the `V1` and `V2` variants).

JavaScript numbers are modelled as exact rationals (`ℚ`); JS `Set` as
`Finset String`; absent JSON fields as `Option` with `none` = omitted.
-/

/-! ## Geometry projector (AnnotationViewer.tsx, `updateAnnotationPositions`) -/

/-- Normalized device coordinates of a projected point, i.e. the components of
`pos` after `pos.project(camera)` in the source. -/
structure NDC where
  x : ℚ
  y : ℚ
  z : ℚ
deriving DecidableEq

/-- Viewport size: `renderer.domElement.clientWidth` / `clientHeight`. -/
structure Viewport where
  width : ℚ
  height : ℚ
deriving DecidableEq

/-- Source: `const margin = 20;` (pixels of tolerance at the viewport edge). -/
def margin : ℚ := 20

/-- Source: `const padding = 60;` (edge padding for off-screen indicators). -/
def padding : ℚ := 60

/-- Source: `const screenX = (pos.x * 0.5 + 0.5) * width;`. -/
def screenXOf (ndc : NDC) (vp : Viewport) : ℚ := (ndc.x * 0.5 + 0.5) * vp.width

/-- Source: `const screenY = (-pos.y * 0.5 + 0.5) * height;`. -/
def screenYOf (ndc : NDC) (vp : Viewport) : ℚ := (-ndc.y * 0.5 + 0.5) * vp.height

/-- Source: `const isBehind = pos.z > 1;`. -/
def isBehind (ndc : NDC) : Bool := decide (ndc.z > 1)

/-- Source: `const isOffScreen = isBehind || screenX < -margin || screenX > width + margin || screenY < -margin || screenY > height + margin;`. -/
def isOffScreenB (ndc : NDC) (vp : Viewport) : Bool :=
  isBehind ndc
    || decide (screenXOf ndc vp < -margin)
    || decide (screenXOf ndc vp > vp.width + margin)
    || decide (screenYOf ndc vp < -margin)
    || decide (screenYOf ndc vp > vp.height + margin)

/-- Visibility classes distinguished by the source's branch structure:
markers are rendered when `!isOffScreen`; otherwise the indicator code takes
the mirrored path when `isBehind` and the direct path when merely off-bounds. -/
inductive Visibility where
  | onScreen : Visibility
  | behind : Visibility
  | offBounds : Visibility
deriving DecidableEq

/-- Visibility classification induced by the source's `isBehind` / `isOffScreen`
booleans and the branches that consume them. -/
def classify (ndc : NDC) (vp : Viewport) : Visibility :=
  if isBehind ndc then Visibility.behind
  else if isOffScreenB ndc vp then Visibility.offBounds
  else Visibility.onScreen

/-- Source, mirrored path: `const flippedX = -pos.x; edgeX = (flippedX * 0.5 + 0.5) * width;`
else `edgeX = screenX;`. -/
def edgeXOf (ndc : NDC) (vp : Viewport) : ℚ :=
  if isBehind ndc then ((-ndc.x) * 0.5 + 0.5) * vp.width else screenXOf ndc vp

/-- Source, mirrored path: `const flippedY = -pos.y; edgeY = (-flippedY * 0.5 + 0.5) * height;`
else `edgeY = screenY;`. -/
def edgeYOf (ndc : NDC) (vp : Viewport) : ℚ :=
  if isBehind ndc then (-(-ndc.y) * 0.5 + 0.5) * vp.height else screenYOf ndc vp

/-- Source: `const clampedX = Math.max(padding, Math.min(width - padding, edgeX));`. -/
def clampedXOf (ndc : NDC) (vp : Viewport) : ℚ :=
  max padding (min (vp.width - padding) (edgeXOf ndc vp))

/-- Source: `const clampedY = Math.max(padding, Math.min(height - padding, edgeY));`. -/
def clampedYOf (ndc : NDC) (vp : Viewport) : ℚ :=
  max padding (min (vp.height - padding) (edgeYOf ndc vp))

/-- CSS position (`style.left` / `style.top`, in pixels) and directional class
(`classList.add(direction)`, the empty string when no edge applies) of an
off-screen indicator. -/
structure Indicator where
  left : ℚ
  top : ℚ
  direction : String
deriving DecidableEq

/-- The indicator placement chain of `updateAnnotationPositions`:
`if (edgeX <= padding) ... else if (edgeX >= width - padding) ... else if
(edgeY <= padding) ... else if (edgeY >= height - padding) ... else ...`. -/
def offscreenIndicator (ndc : NDC) (vp : Viewport) : Indicator :=
  if edgeXOf ndc vp ≤ padding then
    ⟨padding, clampedYOf ndc vp, "left"⟩
  else if vp.width - padding ≤ edgeXOf ndc vp then
    ⟨vp.width - padding, clampedYOf ndc vp, "right"⟩
  else if edgeYOf ndc vp ≤ padding then
    ⟨clampedXOf ndc vp, padding, "top"⟩
  else if vp.height - padding ≤ edgeYOf ndc vp then
    ⟨clampedXOf ndc vp, vp.height - padding, "bottom"⟩
  else
    ⟨clampedXOf ndc vp, clampedYOf ndc vp, ""⟩

/-! ## Step progression state machine (shared-tutorial player page) -/

/-- A camera or annotation position, `{ x, y, z }` in the source. -/
structure Point3 where
  x : ℚ
  y : ℚ
  z : ℚ
deriving DecidableEq

/-- The `Annotation` record of `AnnotationViewer.tsx` (named `AnnotationData`
here; a name ending in the word after `An-` collides with Lean syntax
scanning). `imageUrl` is the optional image reference (`string | null`). -/
structure AnnotationData where
  id : String
  title : String
  content : String
  imageUrl : Option String
  x : ℚ
  y : ℚ
  z : ℚ
  order : ℤ
deriving DecidableEq

/-- The player page's state hooks.  `sortedAnnotations` is the derived view
`[...tutorial.annotations].sort((a, b) => a.order - b.order)`, which every
operation below consumes; `completedSteps` is the JS `Set<string>`;
`currentStep` is kept as an integer because `goToStep` accepts arbitrary
indices; `proximityWarning` is the warning message state (`string | null`). -/
structure PlayerState where
  sortedAnnotations : List AnnotationData
  currentStep : ℤ
  completedSteps : Finset String
  saving : Bool
  proximityWarning : Option String
  cameraPosition : Point3
deriving DecidableEq

/-- Source: `const currentAnnotation = sortedAnnotations[currentStep];`
(JS indexing yields `undefined` outside `[0, length)`). -/
def currentAnn (s : PlayerState) : Option AnnotationData :=
  if s.currentStep < 0 then none else s.sortedAnnotations[s.currentStep.toNat]?

/-- Source: `getDistance` computes
`Math.sqrt(Math.pow(pos1.x - pos2.x, 2) + Math.pow(pos1.y - pos2.y, 2) + Math.pow(pos1.z - pos2.z, 2))`;
this is the radicand (the squared distance), which the square root is applied
to.  Comparisons of `getDistance` with a nonnegative threshold `t` are
equivalent to comparisons of this value with `t ^ 2` (proved as part of C4). -/
def getDistanceSq (pos1 pos2 : Point3) : ℚ :=
  (pos1.x - pos2.x) ^ 2 + (pos1.y - pos2.y) ^ 2 + (pos1.z - pos2.z) ^ 2

/-- Source: `const PROXIMITY_THRESHOLD = 3.0;`. -/
def PROXIMITY_THRESHOLD : ℚ := 3.0

/-- Source: `const isNearCurrentAnnotation = currentAnnotation ?
getDistance(cameraPosition, {x, y, z}) < PROXIMITY_THRESHOLD : false;`
rendered on the squared distance (`√d < 3 ↔ d < 3²`, see C4). -/
def isNearCurrentAnn (s : PlayerState) : Bool :=
  match currentAnn s with
  | some ann => decide (getDistanceSq s.cameraPosition ⟨ann.x, ann.y, ann.z⟩ <
      PROXIMITY_THRESHOLD ^ 2)
  | none => false

/-- JS `Array.prototype.findIndex`: index of the first element satisfying the
predicate, `-1` if none. -/
def findIndexAux (p : AnnotationData → Bool) : List AnnotationData → ℤ
  | [] => -1
  | a :: rest =>
    if p a then 0
    else
      let r := findIndexAux p rest
      if r = -1 then -1 else r + 1

/-- Source: `const nextRequiredStep = sortedAnnotations.findIndex(ann => !completedSteps.has(ann.id));`. -/
def nextRequiredStep (s : PlayerState) : ℤ :=
  findIndexAux (fun ann => decide (ann.id ∉ s.completedSteps)) s.sortedAnnotations

/-- Result of one `markComplete` invocation: the new state and whether a
persistence save (`saveProgress`) was issued. -/
structure MarkResult where
  state : PlayerState
  saveIssued : Bool
deriving DecidableEq

/-- The sequential-gate warning text:
`` `Complete step ${nextRequiredStep + 1} first!` `` (1-based step number). -/
def seqWarning (s : PlayerState) : String :=
  "Complete step " ++ toString (nextRequiredStep s + 1) ++ " first!"

/-- Body of `markComplete` once `currentAnnotation` is known to exist:
the three ordered precondition checks (already completed, sequential gate,
proximity gate) each set a warning and return; otherwise the id is added to
the completed set, a save is issued, the warning cleared, and the index
advanced when not on the last step. -/
def markCompleteWith (s : PlayerState) (ann : AnnotationData) : MarkResult :=
  if ann.id ∈ s.completedSteps then
    ⟨{ s with proximityWarning := some "This step is already completed!" }, false⟩
  else if nextRequiredStep s ≠ -1 ∧ s.currentStep ≠ nextRequiredStep s then
    ⟨{ s with proximityWarning := some (seqWarning s) }, false⟩
  else if !(isNearCurrentAnn s) then
    ⟨{ s with proximityWarning := some "Move closer to the marker to complete this step!" }, false⟩
  else
    ⟨if s.currentStep < (s.sortedAnnotations.length : ℤ) - 1 then
        { s with
          completedSteps := insert ann.id s.completedSteps,
          proximityWarning := none,
          currentStep := s.currentStep + 1 }
      else
        { s with
          completedSteps := insert ann.id s.completedSteps,
          proximityWarning := none }, true⟩

/-- Source `markComplete`: `if (!currentAnnotation) return;` then the checks. -/
def markComplete (s : PlayerState) : MarkResult :=
  match currentAnn s with
  | none => ⟨s, false⟩
  | some ann => markCompleteWith s ann

/-- Source: `const goToStep = (index) => { setCurrentStep(index); };`
(no clamping of the argument). -/
def goToStep (s : PlayerState) (index : ℤ) : PlayerState :=
  { s with currentStep := index }

/-- Source, Previous button: `setCurrentStep(Math.max(0, currentStep - 1))`. -/
def previousButton (s : PlayerState) : PlayerState :=
  { s with currentStep := max 0 (s.currentStep - 1) }

/-- Source, arrow-left/up handler: `if (currentStep > 0) setCurrentStep(currentStep - 1)`. -/
def previousKey (s : PlayerState) : PlayerState :=
  if 0 < s.currentStep then { s with currentStep := s.currentStep - 1 } else s

/-- Source, arrow-right/down handler:
`if (currentStep < sortedAnnotations.length - 1) setCurrentStep(currentStep + 1)`. -/
def nextKey (s : PlayerState) : PlayerState :=
  if s.currentStep < (s.sortedAnnotations.length : ℤ) - 1 then
    { s with currentStep := s.currentStep + 1 }
  else s

/-- Source `loadProgress` effect: when the fetched payload carries a
`completedAnnotations` array, the completed set is replaced by
`new Set(progressData.progress.completedAnnotations)`; otherwise the state is
left alone.  The payload is the argument (`none` = absent field). -/
def loadProgressApply (s : PlayerState) (completedPayload : Option (List String)) :
    PlayerState :=
  match completedPayload with
  | some ids => { s with completedSteps := ids.toFinset }
  | none => s

/-- The ids of the tutorial's annotations (the sorted view is a permutation of
`tutorial.annotations`, so it carries the same id set). -/
def annotationIds (s : PlayerState) : Finset String :=
  (s.sortedAnnotations.map AnnotationData.id).toFinset

/-- Invariant claimed by the spec: `completedSteps ⊆ {annotation.id}`. -/
def completedInvariant (s : PlayerState) : Prop :=
  s.completedSteps ⊆ annotationIds s

/-- Invariant claimed by the spec: the current index is valid whenever the
sorted sequence is non-empty. -/
def stepValid (s : PlayerState) : Prop :=
  s.sortedAnnotations ≠ [] →
    0 ≤ s.currentStep ∧ s.currentStep < (s.sortedAnnotations.length : ℤ)

/-! ## Annotation CRUD routes (the two coexisting API route files) -/

/-- A persisted annotation row (columns referenced by the route handlers). -/
structure AnnotationRow where
  id : String
  tutorialId : String
  title : String
  content : String
  imageUrl : Option String
  x : ℚ
  y : ℚ
  z : ℚ
  order : ℤ
  updatedAt : ℕ
deriving DecidableEq

/-- The JSON body of a PUT request.  `none` models an omitted field
(`undefined` after destructuring); for the nullable `imageUrl` column the
payload distinguishes omitted (`none`) from explicit null (`some none`). -/
structure UpdateRequest where
  annotationId : String
  title : Option String
  content : Option String
  x : Option ℚ
  y : Option ℚ
  z : Option ℚ
  order : Option ℤ
  imageUrl : Option (Option String)
deriving DecidableEq

/-- Primary route's PUT on one row: `updateData` is built only from fields that
were explicitly provided (`if (title !== undefined) updateData.title = title;`
etc.), `updatedAt` always refreshed, and `imageUrl` set whenever present in the
body (so an explicit null clears it). -/
def applyUpdateV1 (req : UpdateRequest) (now : ℕ) (row : AnnotationRow) :
    AnnotationRow :=
  { row with
    updatedAt := now
    title := match req.title with | some t => t | none => row.title
    content := match req.content with | some c => c | none => row.content
    x := match req.x with | some v => v | none => row.x
    y := match req.y with | some v => v | none => row.y
    z := match req.z with | some v => v | none => row.z
    order := match req.order with | some v => v | none => row.order
    imageUrl := match req.imageUrl with | some v => v | none => row.imageUrl }

/-- Secondary route's PUT on one row: `.set({ title, content, x, y, z, order,
updatedAt })` where the ORM's update builder drops entries whose value is
`undefined`, so omitted body fields leave their columns unchanged; `imageUrl`
is not part of the set at all, hence never modified by this route. -/
def applyUpdateV2 (req : UpdateRequest) (now : ℕ) (row : AnnotationRow) :
    AnnotationRow :=
  { row with
    updatedAt := now
    title := match req.title with | some t => t | none => row.title
    content := match req.content with | some c => c | none => row.content
    x := match req.x with | some v => v | none => row.x
    y := match req.y with | some v => v | none => row.y
    z := match req.z with | some v => v | none => row.z
    order := match req.order with | some v => v | none => row.order }

/-- PUT over the whole table: rows matching
`and(eq(annotation.id, annotationId), eq(annotation.tutorialId, tutorialId))`
are updated, all others untouched. -/
def putV1 (tutorialId : String) (req : UpdateRequest) (now : ℕ)
    (db : List AnnotationRow) : List AnnotationRow :=
  db.map fun row =>
    if row.id = req.annotationId ∧ row.tutorialId = tutorialId then
      applyUpdateV1 req now row
    else row

/-- Secondary route's PUT over the whole table (same where-clause). -/
def putV2 (tutorialId : String) (req : UpdateRequest) (now : ℕ)
    (db : List AnnotationRow) : List AnnotationRow :=
  db.map fun row =>
    if row.id = req.annotationId ∧ row.tutorialId = tutorialId then
      applyUpdateV2 req now row
    else row

/-- The JSON body of a POST (create) request; `none` models omitted-or-null
(`order === undefined || order === null` are the cases the primary route folds
together). -/
structure CreateRequest where
  title : String
  content : Option String
  imageUrl : Option String
  x : Option ℚ
  y : Option ℚ
  z : Option ℚ
  order : Option ℤ
deriving DecidableEq

/-- Number of existing annotations of the tutorial:
`db.query.annotation.findMany({ where: eq(a.tutorialId, tutorialId) }).length`. -/
def countFor (tutorialId : String) (db : List AnnotationRow) : ℕ :=
  (db.filter fun row => decide (row.tutorialId = tutorialId)).length

/-- Primary route: `let finalOrder = order; if (order === undefined || order === null) { finalOrder = existingAnnotations.length + 1; }`. -/
def finalOrderV1 (order : Option ℤ) (count : ℕ) : ℤ :=
  match order with
  | none => (count : ℤ) + 1
  | some v => v

/-- Secondary route: `if (!order || order === 1) { finalOrder = existingAnnotations.length + 1; }`
(`!order` is true for `undefined`, `null` and `0`). -/
def finalOrderV2 (order : Option ℤ) (count : ℕ) : ℤ :=
  match order with
  | none => (count : ℤ) + 1
  | some v => if v = 0 ∨ v = 1 then (count : ℤ) + 1 else v

/-- Primary route's POST: validation
`if (!title || x === undefined || y === undefined || z === undefined)` rejects
(`none` result models the 400 response); otherwise the inserted row, with
`content: content || ""`, the optional `imageUrl`, and `order: finalOrder`.
The database assigns the fresh `id` (modelled as the `newId` argument) and the
default timestamp 0. -/
def postV1 (tutorialId newId : String) (req : CreateRequest)
    (db : List AnnotationRow) : Option AnnotationRow :=
  if req.title = "" then none
  else
    match req.x, req.y, req.z with
    | some vx, some vy, some vz =>
      some { id := newId, tutorialId := tutorialId, title := req.title,
             content := req.content.getD "", imageUrl := req.imageUrl,
             x := vx, y := vy, z := vz,
             order := finalOrderV1 req.order (countFor tutorialId db),
             updatedAt := 0 }
    | _, _, _ => none

/-- Secondary route's POST: same validation, no `imageUrl` column in the
insert, and the `finalOrderV2` heuristic. -/
def postV2 (tutorialId newId : String) (req : CreateRequest)
    (db : List AnnotationRow) : Option AnnotationRow :=
  if req.title = "" then none
  else
    match req.x, req.y, req.z with
    | some vx, some vy, some vz =>
      some { id := newId, tutorialId := tutorialId, title := req.title,
             content := req.content.getD "", imageUrl := none,
             x := vx, y := vy, z := vz,
             order := finalOrderV2 req.order (countFor tutorialId db),
             updatedAt := 0 }
    | _, _, _ => none

/-! ## Concrete states used by witnesses and counterexamples -/

/-- Annotation at the origin, first in order. -/
def annAlpha : AnnotationData :=
  { id := "a1", title := "Step A", content := "", imageUrl := none,
    x := 0, y := 0, z := 0, order := 1 }

/-- Second annotation. -/
def annBeta : AnnotationData :=
  { id := "b2", title := "Step B", content := "", imageUrl := none,
    x := 5, y := 0, z := 0, order := 2 }

/-- Third annotation. -/
def annGamma : AnnotationData :=
  { id := "c3", title := "Step C", content := "", imageUrl := none,
    x := 0, y := 5, z := 0, order := 3 }

/-- Base player state: three steps, nothing completed, camera at the origin. -/
def baseState : PlayerState :=
  { sortedAnnotations := [annAlpha, annBeta, annGamma], currentStep := 0,
    completedSteps := ∅, saving := false, proximityWarning := none,
    cameraPosition := ⟨0, 0, 0⟩ }

/-- Scenario of C3: all three steps incomplete, current step index 1. -/
def seqState : PlayerState := { baseState with currentStep := 1 }

/-- State whose current annotation (index 0) is already completed while a
later one is still open. -/
def doneState : PlayerState :=
  { baseState with
    completedSteps := insert "a1" (∅ : Finset String),
    sortedAnnotations := [annAlpha, annBeta] }

/-- Single annotation at the origin, camera at distance 2.9. -/
def nearState : PlayerState :=
  { sortedAnnotations := [annAlpha], currentStep := 0, completedSteps := ∅,
    saving := false, proximityWarning := none, cameraPosition := ⟨0, 0, 2.9⟩ }

/-- Single annotation at the origin, camera at distance 3.1. -/
def farState : PlayerState := { nearState with cameraPosition := ⟨0, 0, 3.1⟩ }

/-- Player state with an empty annotation list. -/
def emptyState : PlayerState :=
  { sortedAnnotations := [], currentStep := 0, completedSteps := ∅,
    saving := false, proximityWarning := none, cameraPosition := ⟨0, 0, 0⟩ }

/-- A persisted row carrying an image, used by the C8 counterexample. -/
def rowWithImage : AnnotationRow :=
  { id := "a1", tutorialId := "t1", title := "Step A", content := "",
    imageUrl := some "pic.png", x := 0, y := 0, z := 0, order := 1,
    updatedAt := 0 }

/-- PUT body that only carries an explicit null image (clears it on the
primary route). -/
def clearImageReq : UpdateRequest :=
  { annotationId := "a1", title := none, content := none, x := none, y := none,
    z := none, order := none, imageUrl := some none }

/-- PUT body that only changes `order`. -/
def orderOnlyReq : UpdateRequest :=
  { annotationId := "a1", title := none, content := none, x := none, y := none,
    z := none, order := some 7, imageUrl := none }

/-- POST body with an explicit `order` of 1. -/
def orderOneReq : CreateRequest :=
  { title := "Step N", content := none, imageUrl := none,
    x := some 0, y := some 0, z := some 0, order := some 1 }

/-- POST body with an explicit `order` of 5. -/
def orderFiveReq : CreateRequest := { orderOneReq with order := some 5 }

/-- Two existing rows of tutorial `t1`. -/
def twoRowDb : List AnnotationRow :=
  [rowWithImage,
   { id := "b2", tutorialId := "t1", title := "Step B", content := "",
     imageUrl := none, x := 1, y := 0, z := 0, order := 2, updatedAt := 0 }]

/-! ## Basic facts about the projector booleans -/

theorem isBehind_iff (ndc : NDC) : isBehind ndc = true ↔ 1 < ndc.z := by
  simp [isBehind]

theorem isOffScreenB_iff (ndc : NDC) (vp : Viewport) :
    isOffScreenB ndc vp = true ↔
      1 < ndc.z ∨ screenXOf ndc vp < -20 ∨ vp.width + 20 < screenXOf ndc vp ∨
        screenYOf ndc vp < -20 ∨ vp.height + 20 < screenYOf ndc vp := by
  simp [isOffScreenB, isBehind, margin, gt_iff_lt, Bool.or_eq_true,
    decide_eq_true_eq, or_assoc]

/-- C1: the projector maps NDC to pixels by `screenX = (ndc.x * 0.5 + 0.5) * width`
and `screenY = (-ndc.y * 0.5 + 0.5) * height`, and classifies a point as
`behind` iff its projected depth exceeds 1, as `offBounds` iff it is not behind
but `screenX` or `screenY` falls outside `[-20, dimension + 20]`
(margin = 20 pixels), and as `onScreen` otherwise. -/
theorem C1_projection_and_classification (ndc : NDC) (vp : Viewport) :
    screenXOf ndc vp = (ndc.x * 0.5 + 0.5) * vp.width ∧
    screenYOf ndc vp = (-ndc.y * 0.5 + 0.5) * vp.height ∧
    (classify ndc vp = Visibility.behind ↔ 1 < ndc.z) ∧
    (classify ndc vp = Visibility.offBounds ↔ ¬ 1 < ndc.z ∧
      (screenXOf ndc vp < -20 ∨ vp.width + 20 < screenXOf ndc vp ∨
       screenYOf ndc vp < -20 ∨ vp.height + 20 < screenYOf ndc vp)) ∧
    (classify ndc vp = Visibility.onScreen ↔ ¬ 1 < ndc.z ∧
      -20 ≤ screenXOf ndc vp ∧ screenXOf ndc vp ≤ vp.width + 20 ∧
      -20 ≤ screenYOf ndc vp ∧ screenYOf ndc vp ≤ vp.height + 20) := by
  by_cases hb : 1 < ndc.z
  · have hbT : isBehind ndc = true := (isBehind_iff ndc).mpr hb
    refine ⟨rfl, rfl, ?_, ?_, ?_⟩ <;> simp [classify, hbT, hb]
  · have hbF : isBehind ndc = false := by
      rw [Bool.eq_false_iff]
      intro h
      exact hb ((isBehind_iff ndc).mp h)
    by_cases ho : screenXOf ndc vp < -20 ∨ vp.width + 20 < screenXOf ndc vp ∨
        screenYOf ndc vp < -20 ∨ vp.height + 20 < screenYOf ndc vp
    · have hoT : isOffScreenB ndc vp = true :=
        (isOffScreenB_iff ndc vp).mpr (Or.inr ho)
      refine ⟨rfl, rfl, ?_, ?_, ?_⟩
      · simp [classify, hbF, hoT, hb]
      · simp [classify, hbF, hoT, hb, ho]
      · simp [classify, hbF, hoT, hb]
        intro h1 h2 h3
        rcases ho with h | h | h | h
        · exact absurd h1 (not_le.mpr h)
        · exact absurd h2 (not_le.mpr h)
        · exact absurd h3 (not_le.mpr h)
        · exact h
    · have hoF : isOffScreenB ndc vp = false := by
        rw [Bool.eq_false_iff]
        intro h
        rcases (isOffScreenB_iff ndc vp).mp h with h | h
        · exact hb h
        · exact ho h
      push_neg at ho
      obtain ⟨h1, h2, h3, h4⟩ := ho
      refine ⟨rfl, rfl, ?_, ?_, ?_⟩
      · simp [classify, hbF, hoF, hb]
      · simp [classify, hbF, hoF, hb, not_or, not_lt]
        exact ⟨h1, h2, h3, h4⟩
      · simp [classify, hbF, hoF, hb]
        exact ⟨h1, h2, h3, h4⟩

/-! ## Helper lemmas on `findIndexAux`, `currentAnn` and `markComplete` -/

theorem findIndexAux_nil (p : AnnotationData → Bool) : findIndexAux p [] = -1 := rfl

theorem findIndexAux_cons (p : AnnotationData → Bool) (a : AnnotationData)
    (rest : List AnnotationData) :
    findIndexAux p (a :: rest) =
      if p a then 0
      else if findIndexAux p rest = -1 then -1 else findIndexAux p rest + 1 := by
  simp [findIndexAux]

theorem findIndexAux_cases (p : AnnotationData → Bool) (l : List AnnotationData) :
    findIndexAux p l = -1 ∨ 0 ≤ findIndexAux p l := by
  induction l with
  | nil => exact Or.inl rfl
  | cons a rest ih =>
    rw [findIndexAux_cons]
    cases hpa : p a with
    | true => right; simp
    | false =>
      simp only [hpa, Bool.false_eq_true, if_false]
      by_cases h2 : findIndexAux p rest = -1
      · left; rw [if_pos h2]
      · right
        rw [if_neg h2]
        rcases ih with h | h
        · exact absurd h h2
        · omega

theorem findIndexAux_ne_neg_one (p : AnnotationData → Bool) {l : List AnnotationData}
    {a : AnnotationData} (ha : a ∈ l) (hpa : p a = true) :
    findIndexAux p l ≠ -1 := by
  induction l with
  | nil => cases ha
  | cons b rest ih =>
    rw [findIndexAux_cons]
    cases hpb : p b with
    | true => simp
    | false =>
      simp only [hpb, Bool.false_eq_true, if_false]
      rcases List.mem_cons.mp ha with rfl | hmem
      · rw [hpb] at hpa; cases hpa
      · have hne := ih hmem
        rw [if_neg hne]
        rcases findIndexAux_cases p rest with h | h
        · exact absurd h hne
        · omega

theorem findIndexAux_found (p : AnnotationData → Bool) (l : List AnnotationData)
    (h : findIndexAux p l ≠ -1) :
    ∃ b, l[(findIndexAux p l).toNat]? = some b ∧ p b = true := by
  induction l with
  | nil => exact absurd (findIndexAux_nil p) h
  | cons a rest ih =>
    rw [findIndexAux_cons] at h ⊢
    cases hpa : p a with
    | true =>
      exact ⟨a, by simp, hpa⟩
    | false =>
      rw [hpa] at h
      simp only [Bool.false_eq_true, if_false] at h ⊢
      by_cases h2 : findIndexAux p rest = -1
      · rw [if_pos h2] at h
        exact absurd rfl h
      · rw [if_neg h2]
        have hr : 0 ≤ findIndexAux p rest := by
          rcases findIndexAux_cases p rest with hx | hx
          · exact absurd hx h2
          · exact hx
        obtain ⟨b, hb1, hb2⟩ := ih h2
        refine ⟨b, ?_, hb2⟩
        have ht : (findIndexAux p rest + 1).toNat = (findIndexAux p rest).toNat + 1 := by
          omega
        rw [ht, List.getElem?_cons_succ]
        exact hb1

theorem findIndexAux_prefix (p : AnnotationData → Bool) (l : List AnnotationData)
    (j : ℕ) (b : AnnotationData) (hj : (j : ℤ) < findIndexAux p l)
    (hjb : l[j]? = some b) : p b = false := by
  induction l generalizing j with
  | nil => simp at hjb
  | cons a rest ih =>
    rw [findIndexAux_cons] at hj
    cases hpa : p a with
    | true =>
      rw [if_pos hpa] at hj
      omega
    | false =>
      rw [hpa] at hj
      simp only [Bool.false_eq_true, if_false] at hj
      by_cases h2 : findIndexAux p rest = -1
      · rw [if_pos h2] at hj
        omega
      · rw [if_neg h2] at hj
        cases j with
        | zero =>
          simp only [List.getElem?_cons_zero, Option.some_inj] at hjb
          rw [← hjb]
          exact hpa
        | succ k =>
          rw [List.getElem?_cons_succ] at hjb
          refine ih k ?_ hjb
          push_cast at hj ⊢
          omega

theorem currentAnn_mem {s : PlayerState} {ann : AnnotationData}
    (h : currentAnn s = some ann) : ann ∈ s.sortedAnnotations := by
  unfold currentAnn at h
  split at h
  · cases h
  · exact List.getElem?_mem h

theorem currentAnn_nil {s : PlayerState} (h : s.sortedAnnotations = []) :
    currentAnn s = none := by
  unfold currentAnn
  split
  · rfl
  · rw [h]
    exact List.getElem?_nil

theorem markComplete_none {s : PlayerState} (h : currentAnn s = none) :
    markComplete s = ⟨s, false⟩ := by
  unfold markComplete
  rw [h]

theorem markComplete_some {s : PlayerState} {ann : AnnotationData}
    (h : currentAnn s = some ann) :
    markComplete s = markCompleteWith s ann := by
  unfold markComplete
  rw [h]

theorem markComplete_shape (s : PlayerState) :
    (markComplete s).state.sortedAnnotations = s.sortedAnnotations ∧
    ((markComplete s).state.currentStep = s.currentStep ∨
      (markComplete s).state.currentStep = s.currentStep + 1 ∧
        s.currentStep < (s.sortedAnnotations.length : ℤ) - 1) ∧
    ((markComplete s).state.completedSteps = s.completedSteps ∨
      ∃ ann, currentAnn s = some ann ∧
        (markComplete s).state.completedSteps = insert ann.id s.completedSteps) := by
  cases h : currentAnn s with
  | none =>
    rw [markComplete_none h]
    exact ⟨rfl, Or.inl rfl, Or.inl rfl⟩
  | some ann =>
    rw [markComplete_some h]
    unfold markCompleteWith
    by_cases h1 : ann.id ∈ s.completedSteps
    · rw [if_pos h1]
      exact ⟨rfl, Or.inl rfl, Or.inl rfl⟩
    · rw [if_neg h1]
      by_cases h2 : nextRequiredStep s ≠ -1 ∧ s.currentStep ≠ nextRequiredStep s
      · rw [if_pos h2]
        exact ⟨rfl, Or.inl rfl, Or.inl rfl⟩
      · rw [if_neg h2]
        by_cases h3 : (!(isNearCurrentAnn s)) = true
        · rw [if_pos h3]
          exact ⟨rfl, Or.inl rfl, Or.inl rfl⟩
        · rw [if_neg h3]
          by_cases h4 : s.currentStep < (s.sortedAnnotations.length : ℤ) - 1
          · rw [if_pos h4]
            exact ⟨rfl, Or.inr ⟨rfl, h4⟩, Or.inr ⟨ann, rfl, rfl⟩⟩
          · rw [if_neg h4]
            exact ⟨rfl, Or.inl rfl, Or.inr ⟨ann, rfl, rfl⟩⟩

/-! ## C2: off-screen indicator -/

theorem indicator_left_eq (ndc : NDC) (vp : Viewport) (hw : 120 ≤ vp.width) :
    (offscreenIndicator ndc vp).left = clampedXOf ndc vp := by
  unfold offscreenIndicator
  split_ifs with h1 h2 h3 h4
  · show padding = clampedXOf ndc vp
    unfold clampedXOf
    rw [min_eq_right, max_eq_left h1]
    unfold padding at h1 ⊢
    linarith
  · show vp.width - padding = clampedXOf ndc vp
    unfold clampedXOf
    rw [min_eq_left h2, max_eq_right]
    unfold padding at h1 ⊢
    linarith
  · rfl
  · rfl
  · rfl

theorem indicator_top_eq (ndc : NDC) (vp : Viewport) (hh : 120 ≤ vp.height) :
    (offscreenIndicator ndc vp).top = clampedYOf ndc vp := by
  unfold offscreenIndicator
  split_ifs with h1 h2 h3 h4
  · rfl
  · rfl
  · show padding = clampedYOf ndc vp
    unfold clampedYOf
    rw [min_eq_right, max_eq_left h3]
    unfold padding at h3 ⊢
    linarith
  · show vp.height - padding = clampedYOf ndc vp
    unfold clampedYOf
    rw [min_eq_left h4, max_eq_right]
    unfold padding at h3 ⊢
    linarith
  · rfl

/-- C2: for an off-screen annotation (behind or off-bounds) the indicator
position is obtained by first negating the NDC x and y when the point is
behind (the mirrored-coordinate path) and then clamping the resulting screen
coordinate into `[60, dimension - 60]` (padding = 60); the directional class
follows the priority order left, right, top, bottom, none — so a point within
60 pixels of the left edge gets `left` no matter how close it also is to the
top, and a point strictly inside the padded region on both axes still yields
an indicator, with an empty directional class. -/
theorem C2_offscreen_indicator (ndc : NDC) (vp : Viewport)
    (hw : 120 ≤ vp.width) (hh : 120 ≤ vp.height)
    (hoff : classify ndc vp ≠ Visibility.onScreen) :
    (isBehind ndc = true →
      edgeXOf ndc vp = screenXOf ⟨-ndc.x, -ndc.y, ndc.z⟩ vp ∧
      edgeYOf ndc vp = screenYOf ⟨-ndc.x, -ndc.y, ndc.z⟩ vp) ∧
    (offscreenIndicator ndc vp).left =
      max 60 (min (vp.width - 60) (edgeXOf ndc vp)) ∧
    (offscreenIndicator ndc vp).top =
      max 60 (min (vp.height - 60) (edgeYOf ndc vp)) ∧
    (edgeXOf ndc vp ≤ 60 → (offscreenIndicator ndc vp).direction = "left") ∧
    (¬ edgeXOf ndc vp ≤ 60 → vp.width - 60 ≤ edgeXOf ndc vp →
      (offscreenIndicator ndc vp).direction = "right") ∧
    (¬ edgeXOf ndc vp ≤ 60 → ¬ vp.width - 60 ≤ edgeXOf ndc vp →
      edgeYOf ndc vp ≤ 60 → (offscreenIndicator ndc vp).direction = "top") ∧
    (¬ edgeXOf ndc vp ≤ 60 → ¬ vp.width - 60 ≤ edgeXOf ndc vp →
      ¬ edgeYOf ndc vp ≤ 60 → vp.height - 60 ≤ edgeYOf ndc vp →
      (offscreenIndicator ndc vp).direction = "bottom") ∧
    (¬ edgeXOf ndc vp ≤ 60 → ¬ vp.width - 60 ≤ edgeXOf ndc vp →
      ¬ edgeYOf ndc vp ≤ 60 → ¬ vp.height - 60 ≤ edgeYOf ndc vp →
      (offscreenIndicator ndc vp).direction = "") := by
  have hpad : padding = 60 := rfl
  refine ⟨?_, ?_, ?_, ?_, ?_, ?_, ?_, ?_⟩
  · intro hb
    constructor
    · unfold edgeXOf screenXOf
      rw [if_pos hb]
    · unfold edgeYOf screenYOf
      rw [if_pos hb]
  · rw [indicator_left_eq ndc vp hw]
    unfold clampedXOf
    rw [hpad]
  · rw [indicator_top_eq ndc vp hh]
    unfold clampedYOf
    rw [hpad]
  · intro hx
    unfold offscreenIndicator
    rw [if_pos (hpad ▸ hx)]
  · intro hx1 hx2
    unfold offscreenIndicator
    rw [if_neg (hpad ▸ hx1), if_pos (hpad ▸ hx2)]
  · intro hx1 hx2 hy1
    unfold offscreenIndicator
    rw [if_neg (hpad ▸ hx1), if_neg (hpad ▸ hx2), if_pos (hpad ▸ hy1)]
  · intro hx1 hx2 hy1 hy2
    unfold offscreenIndicator
    rw [if_neg (hpad ▸ hx1), if_neg (hpad ▸ hx2), if_neg (hpad ▸ hy1),
      if_pos (hpad ▸ hy2)]
  · intro hx1 hx2 hy1 hy2
    unfold offscreenIndicator
    rw [if_neg (hpad ▸ hx1), if_neg (hpad ▸ hx2), if_neg (hpad ▸ hy1),
      if_neg (hpad ▸ hy2)]

/-- Witness for C2 at a behind-the-camera point: NDC `(0.9, 0, 2)` in an
800×600 viewport mirrors to screen x = 40 ≤ 60, so the indicator carries the
`left` class and sits on the left padding line. -/
theorem C2_offscreen_indicator_witness :
    (offscreenIndicator ⟨0.9, 0, 2⟩ ⟨800, 600⟩).direction = "left" ∧
    (offscreenIndicator ⟨0.9, 0, 2⟩ ⟨800, 600⟩).left = 60 := by
  have hb : isBehind ⟨0.9, 0, 2⟩ = true := by
    unfold isBehind
    norm_num
  have hedge : edgeXOf ⟨0.9, 0, 2⟩ ⟨800, 600⟩ = 40 := by
    unfold edgeXOf
    rw [if_pos hb]
    norm_num
  have h := C2_offscreen_indicator ⟨0.9, 0, 2⟩ ⟨800, 600⟩ (by norm_num)
    (by norm_num)
    (by
      unfold classify
      rw [if_pos hb]
      intro hcon
      cases hcon)
  refine ⟨h.2.2.2.1 (by rw [hedge]; norm_num), ?_⟩
  rw [h.2.1, hedge]
  norm_num

/-! ## C3: sequential gate -/

/-- C3 (amended): when the current annotation exists and is not yet completed,
`nextRequiredStep` is the index of the first not-yet-completed annotation in
sorted order (nonnegative, with every earlier index completed), and whenever it
differs from the current step index `markComplete` only sets the warning naming
the required step (1-based) — completed set, step index and saving flag are
untouched and no save is issued.  (When the current annotation is already
completed, the already-completed check fires first; see the counterexample.) -/
theorem C3_sequential_gate (s : PlayerState) (ann : AnnotationData)
    (hc : currentAnn s = some ann)
    (hnew : ann.id ∉ s.completedSteps)
    (hdiff : s.currentStep ≠ nextRequiredStep s) :
    markComplete s = ⟨{ s with proximityWarning := some (seqWarning s) }, false⟩ ∧
    0 ≤ nextRequiredStep s ∧
    (∃ b, s.sortedAnnotations[(nextRequiredStep s).toNat]? = some b ∧
      b.id ∉ s.completedSteps) ∧
    (∀ (j : ℕ) b, (j : ℤ) < nextRequiredStep s →
      s.sortedAnnotations[j]? = some b → b.id ∈ s.completedSteps) := by
  have hmem := currentAnn_mem hc
  have hne : nextRequiredStep s ≠ -1 :=
    findIndexAux_ne_neg_one _ hmem (by simpa using hnew)
  have hpos : 0 ≤ nextRequiredStep s := by
    rcases findIndexAux_cases (fun a => decide (a.id ∉ s.completedSteps))
        s.sortedAnnotations with h | h
    · exact absurd h hne
    · exact h
  refine ⟨?_, hpos, ?_, ?_⟩
  · rw [markComplete_some hc]
    unfold markCompleteWith
    rw [if_neg hnew, if_pos ⟨hne, hdiff⟩]
  · obtain ⟨b, hb1, hb2⟩ := findIndexAux_found _ _ hne
    exact ⟨b, hb1, by simpa using hb2⟩
  · intro j b hj hjb
    have hfb := findIndexAux_prefix (fun a => decide (a.id ∉ s.completedSteps))
      s.sortedAnnotations j b hj hjb
    simpa using hfb

/-- Witness for C3 at the spec's concrete scenario: `[A, B, C]` all incomplete
with current index 1 — the first required step is 0, the warning references
step 1, and nothing else changes. -/
theorem C3_sequential_gate_witness :
    nextRequiredStep seqState = 0 ∧
    markComplete seqState =
      ⟨{ seqState with proximityWarning := some "Complete step 1 first!" }, false⟩ := by
  have h := C3_sequential_gate seqState annBeta rfl (by decide) (by decide)
  refine ⟨by decide, ?_⟩
  rw [h.1]
  have hw : seqWarning seqState = "Complete step 1 first!" := by decide
  rw [hw]

/-- Counterexample to C3 as stated: in `doneState` the current annotation is
already completed while annotation `b2` is still open, so `nextRequiredStep`
exists (index 1) and differs from the current index 0, yet `markComplete`
produces the already-completed warning, not one naming the required step. -/
theorem C3_sequential_gate_counterexample :
    nextRequiredStep doneState = 1 ∧
    doneState.currentStep = 0 ∧
    (markComplete doneState).state.proximityWarning =
      some "This step is already completed!" ∧
    (markComplete doneState).state.proximityWarning ≠ some (seqWarning doneState) := by
  refine ⟨by decide, by decide, by decide, by decide⟩

/-! ## C4: proximity gate, C5: idempotence, C10: empty list -/

/-- C4: once the earlier gates pass, the proximity gate passes iff the
Euclidean distance (the square root of the squared distance computed by
`getDistance`) between the camera and the current annotation is strictly below
3.0; on failure `markComplete` only sets the proximity warning and issues no
save, and on success it adds the id, clears the warning and issues a save. -/
theorem C4_proximity_gate (s : PlayerState) (ann : AnnotationData)
    (hc : currentAnn s = some ann)
    (hnew : ann.id ∉ s.completedSteps)
    (hseq : s.currentStep = nextRequiredStep s) :
    (isNearCurrentAnn s = true ↔
      Real.sqrt ((getDistanceSq s.cameraPosition ⟨ann.x, ann.y, ann.z⟩ : ℚ) : ℝ) < 3) ∧
    (isNearCurrentAnn s = false →
      markComplete s =
        ⟨{ s with proximityWarning := some "Move closer to the marker to complete this step!" }, false⟩) ∧
    (isNearCurrentAnn s = true →
      (markComplete s).state.completedSteps = insert ann.id s.completedSteps ∧
      (markComplete s).state.proximityWarning = none ∧
      (markComplete s).saveIssued = true) := by
  have hNear : isNearCurrentAnn s =
      decide (getDistanceSq s.cameraPosition ⟨ann.x, ann.y, ann.z⟩ <
        PROXIMITY_THRESHOLD ^ 2) := by
    unfold isNearCurrentAnn
    rw [hc]
  refine ⟨?_, ?_, ?_⟩
  · rw [hNear, decide_eq_true_eq,
      Real.sqrt_lt' (show (0:ℝ) < 3 by norm_num),
      show PROXIMITY_THRESHOLD = 3 from by norm_num [PROXIMITY_THRESHOLD]]
    constructor
    · intro h
      exact_mod_cast h
    · intro h
      exact_mod_cast h
  · intro hfar
    rw [markComplete_some hc]
    unfold markCompleteWith
    rw [if_neg hnew, if_neg (fun hcon => hcon.2 hseq), if_pos (by simp [hfar])]
  · intro hnear
    rw [markComplete_some hc]
    unfold markCompleteWith
    rw [if_neg hnew, if_neg (fun hcon => hcon.2 hseq), if_neg (by simp [hnear])]
    by_cases hlast : s.currentStep < (s.sortedAnnotations.length : ℤ) - 1
    · rw [if_pos hlast]
      exact ⟨rfl, rfl, rfl⟩
    · rw [if_neg hlast]
      exact ⟨rfl, rfl, rfl⟩

/-- Witness for C4 at the spec's concrete scenario: annotation at the origin;
camera at `(0, 0, 2.9)` passes the gate (`markComplete` completes the step and
issues a save) while camera at `(0, 0, 3.1)` fails it with the proximity
warning and no save. -/
theorem C4_proximity_gate_witness :
    isNearCurrentAnn nearState = true ∧
    (markComplete nearState).saveIssued = true ∧
    (markComplete nearState).state.completedSteps =
      insert "a1" (∅ : Finset String) ∧
    markComplete farState =
      ⟨{ farState with proximityWarning := some "Move closer to the marker to complete this step!" }, false⟩ := by
  have hN := C4_proximity_gate nearState annAlpha rfl (by decide) (by decide)
  have hF := C4_proximity_gate farState annAlpha rfl (by decide) (by decide)
  have hnear : isNearCurrentAnn nearState = true := by
    unfold isNearCurrentAnn currentAnn nearState annAlpha
    norm_num [getDistanceSq, PROXIMITY_THRESHOLD]
  have hfar : isNearCurrentAnn farState = false := by
    unfold isNearCurrentAnn currentAnn farState nearState annAlpha
    norm_num [getDistanceSq, PROXIMITY_THRESHOLD]
  obtain ⟨hset, -, hsave⟩ := hN.2.2 hnear
  exact ⟨hnear, hsave, hset, hF.2.1 hfar⟩

/-- C5: when the current annotation's id is already in the completed set,
`markComplete` only sets the already-completed warning: the completed set, the
step index and the saving flag are unchanged and no save is issued, so a
second invocation on a completed step is a no-op apart from the message. -/
theorem C5_already_completed_noop (s : PlayerState) (ann : AnnotationData)
    (hc : currentAnn s = some ann)
    (hdone : ann.id ∈ s.completedSteps) :
    markComplete s =
      ⟨{ s with proximityWarning := some "This step is already completed!" }, false⟩ := by
  rw [markComplete_some hc]
  unfold markCompleteWith
  rw [if_pos hdone]

/-- Witness for C5: in `doneState` the current step `a1` is already completed;
`markComplete` only sets the warning and issues no save. -/
theorem C5_already_completed_noop_witness :
    markComplete doneState =
      ⟨{ doneState with proximityWarning := some "This step is already completed!" },
        false⟩ :=
  C5_already_completed_noop doneState annAlpha rfl (by decide)

/-- C10: with an empty annotation list there is no current annotation, and
`markComplete` is a total no-op: state (completed set, index, warning, saving
flag) unchanged and no save issued. -/
theorem C10_empty_markComplete_noop (s : PlayerState)
    (h : s.sortedAnnotations = []) :
    markComplete s = ⟨s, false⟩ :=
  markComplete_none (currentAnn_nil h)

/-- Witness for C10 on the concrete empty state. -/
theorem C10_empty_markComplete_noop_witness :
    markComplete emptyState = ⟨emptyState, false⟩ :=
  C10_empty_markComplete_noop emptyState rfl

/-! ## C6: index validity, C7: completed-set subset invariant -/

/-- C6 (amended): previous and next keep the index inside `[0, stepCount-1]`
(the button via `Math.max`, the keyboard handlers via their guards), and
`markComplete` preserves validity; `goToStep` stores its argument unclamped, so
it preserves the invariant exactly for in-range arguments — which is what every
in-code call site supplies.  (Arbitrary out-of-range arguments are not clamped;
see the counterexample.) -/
theorem C6_navigation_validity (s : PlayerState) (hs : stepValid s) :
    stepValid (previousButton s) ∧ stepValid (previousKey s) ∧
    stepValid (nextKey s) ∧ stepValid (markComplete s).state ∧
    (∀ i : ℤ, 0 ≤ i → i < (s.sortedAnnotations.length : ℤ) →
      stepValid (goToStep s i)) := by
  refine ⟨?_, ?_, ?_, ?_, ?_⟩
  · intro hne
    obtain ⟨h0, hl⟩ := hs hne
    unfold previousButton
    dsimp only
    constructor
    · exact le_max_left 0 _
    · omega
  · intro hne
    unfold previousKey at hne ⊢
    by_cases h : 0 < s.currentStep
    · rw [if_pos h] at hne ⊢
      dsimp only at hne ⊢
      obtain ⟨h0, hl⟩ := hs hne
      omega
    · rw [if_neg h] at hne ⊢
      exact hs hne
  · intro hne
    unfold nextKey at hne ⊢
    by_cases h : s.currentStep < (s.sortedAnnotations.length : ℤ) - 1
    · rw [if_pos h] at hne ⊢
      dsimp only at hne ⊢
      obtain ⟨h0, hl⟩ := hs hne
      omega
    · rw [if_neg h] at hne ⊢
      exact hs hne
  · intro hne
    obtain ⟨heq, hstep, -⟩ := markComplete_shape s
    rw [heq] at hne
    obtain ⟨h0, hl⟩ := hs hne
    rw [heq]
    rcases hstep with h | ⟨h, hrange⟩
    · rw [h]
      exact ⟨h0, hl⟩
    · rw [h]
      omega
  · intro i hi0 hil hne
    exact ⟨hi0, hil⟩

/-- Witness for C6: from the 3-step base state, `next` and an in-range
`goToStep 2` leave the index valid. -/
theorem C6_navigation_validity_witness :
    stepValid (nextKey baseState) ∧ stepValid (goToStep baseState 2) := by
  have h := C6_navigation_validity baseState (fun _ => by decide)
  exact ⟨h.2.2.1, h.2.2.2.2 2 (by decide) (by decide)⟩

/-- Counterexample to C6 as stated: `goToStep` with the arbitrary integer 5 on
the 3-step base state stores index 5, which is not clamped to `[0, 2]`. -/
theorem C6_navigation_validity_counterexample :
    (goToStep baseState 5).currentStep = 5 ∧
    (goToStep baseState 5).sortedAnnotations ≠ [] ∧
    ¬ ((goToStep baseState 5).currentStep <
        ((goToStep baseState 5).sortedAnnotations.length : ℤ)) := by
  refine ⟨by decide, by decide, by decide⟩

/-- C7 (amended): `markComplete` and every navigation operation preserve
`completedSteps ⊆ annotationIds`, while rehydration (`loadProgress`) replaces
the completed set with exactly the persisted payload — so after rehydration
the invariant holds precisely when the payload is a subset of the tutorial's
annotation ids (the code does not filter the payload; see the counterexample). -/
theorem C7_subset_invariant (s : PlayerState) (ids : List String) (i : ℤ)
    (hinv : completedInvariant s) :
    completedInvariant (markComplete s).state ∧
    (loadProgressApply s (some ids)).completedSteps = ids.toFinset ∧
    (completedInvariant (loadProgressApply s (some ids)) ↔
      ids.toFinset ⊆ annotationIds s) ∧
    completedInvariant (loadProgressApply s none) ∧
    completedInvariant (goToStep s i) ∧
    completedInvariant (previousButton s) ∧
    completedInvariant (previousKey s) ∧
    completedInvariant (nextKey s) := by
  refine ⟨?_, rfl, Iff.rfl, hinv, hinv, hinv, ?_, ?_⟩
  · obtain ⟨heq, -, hset⟩ := markComplete_shape s
    unfold completedInvariant annotationIds at hinv ⊢
    rw [heq]
    rcases hset with h | ⟨ann, hann, h⟩
    · rw [h]
      exact hinv
    · rw [h]
      refine Finset.insert_subset ?_ hinv
      have hmem := currentAnn_mem hann
      simp only [List.mem_toFinset, List.mem_map]
      exact ⟨ann, hmem, rfl⟩
  · unfold previousKey
    by_cases h : 0 < s.currentStep
    · rw [if_pos h]
      exact hinv
    · rw [if_neg h]
      exact hinv
  · unfold nextKey
    by_cases h : s.currentStep < (s.sortedAnnotations.length : ℤ) - 1
    · rw [if_pos h]
      exact hinv
    · rw [if_neg h]
      exact hinv

/-- Witness for C7: completing the only step of `nearState` keeps the
completed set inside the annotation ids, and rehydrating the base state with
payload `["a1"]` yields exactly that set. -/
theorem C7_subset_invariant_witness :
    completedInvariant (markComplete nearState).state ∧
    (loadProgressApply baseState (some ["a1"])).completedSteps =
      (["a1"] : List String).toFinset := by
  have h1 := C7_subset_invariant nearState [] 0 (Finset.empty_subset _)
  have h2 := C7_subset_invariant baseState ["a1"] 0 (Finset.empty_subset _)
  exact ⟨h1.1, h2.2.1⟩

/-- Counterexample to C7 as stated: rehydrating the base state with a payload
containing an id that belongs to no annotation (e.g. a stale id of a deleted
annotation) leaves the completed set containing `"ghost"`, violating the
subset invariant. -/
theorem C7_subset_invariant_counterexample :
    completedInvariant baseState ∧
    ¬ completedInvariant (loadProgressApply baseState (some ["ghost"])) := by
  constructor
  · exact Finset.empty_subset _
  · unfold completedInvariant
    decide

/-! ## C8: partial update, C9: order auto-assignment -/

/-- C8 (amended): the primary PUT has full partial-update semantics — every
omitted field keeps its prior value, an order-only update changes nothing but
`order` (and the timestamp), non-matching rows are untouched positionally, and
an explicit null for `imageUrl` clears it; the secondary PUT also leaves
omitted fields alone but never writes `imageUrl` at all, so an explicit null
cannot clear the image there (see the counterexample). -/
theorem C8_partial_update (tid : String) (req : UpdateRequest) (now : ℕ)
    (row : AnnotationRow) (db : List AnnotationRow) :
    (req.title = none → (applyUpdateV1 req now row).title = row.title) ∧
    (req.content = none → (applyUpdateV1 req now row).content = row.content) ∧
    (req.x = none → (applyUpdateV1 req now row).x = row.x) ∧
    (req.y = none → (applyUpdateV1 req now row).y = row.y) ∧
    (req.z = none → (applyUpdateV1 req now row).z = row.z) ∧
    (req.order = none → (applyUpdateV1 req now row).order = row.order) ∧
    (req.imageUrl = none → (applyUpdateV1 req now row).imageUrl = row.imageUrl) ∧
    (req.imageUrl = some none → (applyUpdateV1 req now row).imageUrl = none) ∧
    (req.title = none → req.content = none → req.x = none → req.y = none →
      req.z = none → req.imageUrl = none →
      applyUpdateV1 req now row =
        { row with order := req.order.getD row.order, updatedAt := now }) ∧
    (∀ (i : ℕ) r, db[i]? = some r →
      ¬(r.id = req.annotationId ∧ r.tutorialId = tid) →
      (putV1 tid req now db)[i]? = some r) ∧
    (applyUpdateV2 req now row).imageUrl = row.imageUrl := by
  refine ⟨?_, ?_, ?_, ?_, ?_, ?_, ?_, ?_, ?_, ?_, rfl⟩
  · intro h
    simp [applyUpdateV1, h]
  · intro h
    simp [applyUpdateV1, h]
  · intro h
    simp [applyUpdateV1, h]
  · intro h
    simp [applyUpdateV1, h]
  · intro h
    simp [applyUpdateV1, h]
  · intro h
    simp [applyUpdateV1, h]
  · intro h
    simp [applyUpdateV1, h]
  · intro h
    simp [applyUpdateV1, h]
  · intro h1 h2 h3 h4 h5 h6
    cases ho : req.order with
    | none => simp [applyUpdateV1, h1, h2, h3, h4, h5, h6, ho]
    | some v => simp [applyUpdateV1, h1, h2, h3, h4, h5, h6, ho]
  · intro i r hr hnm
    unfold putV1
    rw [List.getElem?_map, hr, Option.map_some']
    rw [if_neg hnm]

/-- Witness for C8: an order-only update of the image-carrying row changes
exactly `order` and the timestamp, and an explicit-null image update on the
primary route clears the image. -/
theorem C8_partial_update_witness :
    applyUpdateV1 orderOnlyReq 5 rowWithImage =
      { rowWithImage with order := 7, updatedAt := 5 } ∧
    (applyUpdateV1 clearImageReq 5 rowWithImage).imageUrl = none := by
  have h1 := C8_partial_update "t1" orderOnlyReq 5 rowWithImage []
  have h2 := C8_partial_update "t1" clearImageReq 5 rowWithImage []
  constructor
  · have he := h1.2.2.2.2.2.2.2.2.1 rfl rfl rfl rfl rfl rfl
    rw [he]
    rfl
  · exact h2.2.2.2.2.2.2.2.1 rfl

/-- Counterexample to C8 as stated: the secondary route's PUT given an
explicit-null `imageUrl` leaves the stored image untouched instead of
clearing it. -/
theorem C8_partial_update_counterexample :
    clearImageReq.imageUrl = some none ∧
    (putV2 "t1" clearImageReq 5 [rowWithImage]).map (fun r => r.imageUrl) =
      [some "pic.png"] ∧
    some "pic.png" ≠ (none : Option String) := by
  refine ⟨rfl, rfl, by decide⟩

/-- C9 (amended): the primary create route auto-assigns
`order = count + 1` exactly when `order` is omitted or null, and stores any
explicitly provided value — including 1 — as given; the secondary create route
additionally discards an explicit `order` of 1 (or the falsy 0) and stores
`count + 1` instead (see the counterexample). -/
theorem C9_order_auto_assignment (tid newId : String) (req : CreateRequest)
    (db : List AnnotationRow) (row1 row2 : AnnotationRow)
    (h1 : postV1 tid newId req db = some row1)
    (h2 : postV2 tid newId req db = some row2) :
    (∀ v, req.order = some v → row1.order = v) ∧
    (req.order = none → row1.order = (countFor tid db : ℤ) + 1) ∧
    (∀ v, req.order = some v → v ≠ 0 → v ≠ 1 → row2.order = v) ∧
    (req.order = some 1 → row2.order = (countFor tid db : ℤ) + 1) := by
  have e1 : row1.order = finalOrderV1 req.order (countFor tid db) := by
    unfold postV1 at h1
    split at h1
    · cases h1
    · split at h1
      · cases h1
        rfl
      · cases h1
  have e2 : row2.order = finalOrderV2 req.order (countFor tid db) := by
    unfold postV2 at h2
    split at h2
    · cases h2
    · split at h2
      · cases h2
        rfl
      · cases h2
  refine ⟨?_, ?_, ?_, ?_⟩
  · intro v hv
    rw [e1, hv]
    rfl
  · intro hv
    rw [e1, hv]
    rfl
  · intro v hv hv0 hv1
    rw [e2, hv]
    simp [finalOrderV2, hv0, hv1]
  · intro hv
    rw [e2, hv]
    simp [finalOrderV2]

/-- Witness for C9: with two existing rows, an explicit `order` of 5 is stored
as given by both routes. -/
theorem C9_order_auto_assignment_witness :
    (postV1 "t1" "n1" orderFiveReq twoRowDb).map (fun r => r.order) = some 5 ∧
    (postV2 "t1" "n1" orderFiveReq twoRowDb).map (fun r => r.order) = some 5 := by
  have hrow1 : postV1 "t1" "n1" orderFiveReq twoRowDb =
      some { id := "n1", tutorialId := "t1", title := "Step N", content := "",
             imageUrl := none, x := 0, y := 0, z := 0, order := 5,
             updatedAt := 0 } := by rfl
  have hrow2 : postV2 "t1" "n1" orderFiveReq twoRowDb =
      some { id := "n1", tutorialId := "t1", title := "Step N", content := "",
             imageUrl := none, x := 0, y := 0, z := 0, order := 5,
             updatedAt := 0 } := by rfl
  have h := C9_order_auto_assignment "t1" "n1" orderFiveReq twoRowDb _ _
    hrow1 hrow2
  rw [hrow1, hrow2, Option.map_some']
  exact ⟨by rw [h.1 5 rfl], by rw [h.2.2.1 5 rfl (by decide) (by decide)]⟩

/-- Counterexample to C9 as stated: posting an explicit `order` of 1 to the
secondary route with two existing annotations stores `count + 1 = 3`, not the
provided value 1. -/
theorem C9_order_auto_assignment_counterexample :
    orderOneReq.order = some 1 ∧
    (postV2 "t1" "n1" orderOneReq twoRowDb).map (fun r => r.order) = some 3 ∧
    (3 : ℤ) ≠ 1 := by
  refine ⟨rfl, rfl, by decide⟩
